import Mathlib

/-!
Verification of the session lifecycle manager of
`backend/app/services/session_manager.py` (class `SessionManager`), the core
component of the repository's backend.

Shallow embedding conventions:
* Wall-clock time (`datetime.now()` / `time.time()`) is modelled as an `Int`
  passed explicitly as a `now` argument to every operation that reads the clock.
  A message's `timestamp` (ISO string of the creation instant) and its `id`
  (`int(time.time() * 1000)`) are both derived from the clock at append time,
  so both are modelled by the same `now` value.
* The Python `dict` `self.sessions` (insertion ordered, unique keys) is
  modelled as an association list `List (String × Session)`; key uniqueness
  (`Nodup` on the key list) is stated as a hypothesis where a theorem needs it.
* Session ids come from `uuid.uuid4()`, an external generator; operations that
  create ids take the generated `String` as an argument.
* Python integers are modelled as `Int`.
-/

/-- A chat message, as built by `add_message_to_session`
(`{'text': ..., 'isUser': ..., 'timestamp': ..., 'id': ...}`). -/
structure Message where
  text : String
  isUser : Bool
  timestamp : Int
  id : Int
deriving Repr, DecidableEq

/-- Per-session state, as built by `create_session`. -/
structure Session where
  created_at : Int
  last_activity : Int
  messages : List Message
  query_count : Int
  max_queries : Int
deriving Repr, DecidableEq

/-- The `SessionManager` object: the `self.sessions` dict plus the
`self.session_timeout` constant. -/
structure SessionManager where
  sessions : List (String × Session)
  session_timeout : Int
deriving Repr, DecidableEq

/-- `SessionManager.__init__`: empty store, `session_timeout = 3600`. -/
def initSessionManager : SessionManager :=
  { sessions := [], session_timeout := 3600 }

/-- `config.py`: `SESSION_QUERY_LIMIT = 10` (display-oriented constant). -/
def SESSION_QUERY_LIMIT : Int := 10

/-- `config.py`: `SESSION_TIMEOUT_HOURS = 24`. -/
def SESSION_TIMEOUT_HOURS : Int := 24

/-- Dict lookup `self.sessions[sid]` / `sid in self.sessions` on the
association-list model: first entry with the given key. -/
def lookupSession (l : List (String × Session)) (sid : String) : Option Session :=
  match l with
  | [] => none
  | (k, v) :: rest => if k = sid then some v else lookupSession rest sid

/-- Dict deletion `del self.sessions[sid]`: removes the first entry with the
given key (the only one, when keys are unique). -/
def eraseSession (l : List (String × Session)) (sid : String) :
    List (String × Session) :=
  match l with
  | [] => []
  | (k, v) :: rest => if k = sid then rest else (k, v) :: eraseSession rest sid

/-- In-place mutation of the value stored at a key
(`self.sessions[sid]['field'] = ...`): rewrites the first entry with the
given key, leaves the rest. -/
def updateSession (l : List (String × Session)) (sid : String)
    (f : Session → Session) : List (String × Session) :=
  match l with
  | [] => []
  | (k, v) :: rest => if k = sid then (k, f v) :: rest else (k, v) :: updateSession rest sid f

/-- Dict assignment `self.sessions[sid] = s`: overwrites in place when the key
exists, otherwise appends at the end (Python dicts preserve insertion order). -/
def insertSession (l : List (String × Session)) (sid : String) (s : Session) :
    List (String × Session) :=
  match l with
  | [] => [(sid, s)]
  | (k, v) :: rest => if k = sid then (k, s) :: rest else (k, v) :: insertSession rest sid s

/-- The fresh session dict built by `create_session`:
`{'created_at': now, 'last_activity': now, 'messages': [], 'query_count': 0,
'max_queries': 5}`. -/
def freshSession (now : Int) : Session :=
  { created_at := now
    last_activity := now
    messages := []
    query_count := 0
    max_queries := 5 }

/-- `create_session`: stores a fresh session under the generated id and
returns the id. -/
def create_session (m : SessionManager) (now : Int) (sid : String) :
    String × SessionManager :=
  (sid, { m with sessions := insertSession m.sessions sid (freshSession now) })

/-- `_is_session_expired`: `datetime.now() - last_activity >
timedelta(seconds=self.session_timeout)`. -/
def is_session_expired (m : SessionManager) (now : Int) (s : Session) : Bool :=
  m.session_timeout < now - s.last_activity

/-- `get_session`: `None` when the id is missing; when present but expired,
deletes the entry and returns `None`; otherwise returns the session. The
returned manager is the (possibly mutated) store. -/
def get_session (m : SessionManager) (now : Int) (sid : String) :
    Option Session × SessionManager :=
  match lookupSession m.sessions sid with
  | none => (none, m)
  | some s =>
    if is_session_expired m now s then
      (none, { m with sessions := eraseSession m.sessions sid })
    else
      (some s, m)

/-- `update_session_activity`: if the id is present, set `last_activity` to
the current time. -/
def update_session_activity (m : SessionManager) (now : Int) (sid : String) :
    SessionManager :=
  match lookupSession m.sessions sid with
  | some _ =>
      { m with sessions :=
          (updateSession m.sessions sid (fun s => { s with last_activity := now })) }
  | none => m

/-- The message dict built inside `add_message_to_session`; `timestamp` and
`id` are both taken from the clock at append time. -/
def mkMessage (text : String) (isUser : Bool) (now : Int) : Message :=
  { text := text, isUser := isUser, timestamp := now, id := now }

/-- The in-place mutation of the session performed by
`add_message_to_session`: append the message, bump `query_count` when the
message is a user message, then keep only the last 10 messages
(`session['messages'][-10:]`) when the bound is exceeded. -/
def appendStep (now : Int) (s : Session) (text : String) (isUser : Bool) :
    Session :=
  let msgs := s.messages ++ [mkMessage text isUser now]
  let q := if isUser then s.query_count + 1 else s.query_count
  let msgs2 := if msgs.length > 10 then msgs.drop (msgs.length - 10) else msgs
  { s with messages := msgs2, query_count := q }

/-- `add_message_to_session`: resolves the session via `get_session`
(returning `False` when absent or expired), mutates it with `appendStep`,
then refreshes `last_activity` via `update_session_activity`. -/
def add_message_to_session (m : SessionManager) (now : Int) (sid : String)
    (message : String) (is_user : Bool) : Bool × SessionManager :=
  match get_session m now sid with
  | (none, m1) => (false, m1)
  | (some s, m1) =>
    let m2 := { m1 with sessions :=
        (updateSession m1.sessions sid (fun _ => appendStep now s message is_user)) }
    (true, update_session_activity m2 now sid)

/-- `get_conversation_history`: the session's message list, `[]` when the id
is absent or expired (the lookup's deletion side effect is kept). -/
def get_conversation_history (m : SessionManager) (now : Int) (sid : String) :
    List Message × SessionManager :=
  match get_session m now sid with
  | (none, m1) => ([], m1)
  | (some s, m1) => (s.messages, m1)

/-- `can_make_query`: `query_count < max_queries` for a present, non-expired
session; `False` otherwise. -/
def can_make_query (m : SessionManager) (now : Int) (sid : String) :
    Bool × SessionManager :=
  match get_session m now sid with
  | (none, m1) => (false, m1)
  | (some s, m1) => (decide (s.query_count < s.max_queries), m1)

/-- `get_remaining_queries`: `max(0, max_queries - query_count)` for a
present, non-expired session; `0` otherwise. -/
def get_remaining_queries (m : SessionManager) (now : Int) (sid : String) :
    Int × SessionManager :=
  match get_session m now sid with
  | (none, m1) => (0, m1)
  | (some s, m1) => (max 0 (s.max_queries - s.query_count), m1)

/-- `cleanup_expired_sessions`: collect the ids of all expired sessions,
delete each, and return how many ids were collected. -/
def cleanup_expired_sessions (m : SessionManager) (now : Int) :
    Nat × SessionManager :=
  let expired_sessions :=
    (m.sessions.filter (fun p => is_session_expired m now p.2)).map Prod.fst
  let sessions2 := expired_sessions.foldl (fun l sid => eraseSession l sid) m.sessions
  (expired_sessions.length, { m with sessions := sessions2 })

/-- One call of `add_message_to_session` viewed at the session level: the
`appendStep` mutation followed by the `update_session_activity` refresh. -/
def stepSession (s : Session) (text : String) (isUser : Bool) (now : Int) :
    Session :=
  { appendStep now s text isUser with last_activity := now }

/-- One element of a sequence of `add_message_to_session` calls: the message
text, the user flag, and the clock value at the time of the call. -/
structure AppendCall where
  text : String
  isUser : Bool
  time : Int
deriving Repr, DecidableEq

/-- The message record a given call appends. -/
def AppendCall.toMessage (a : AppendCall) : Message :=
  mkMessage a.text a.isUser a.time

/-- Run a sequence of `add_message_to_session` calls against the store,
threading the mutated store through. -/
def runAppends (m : SessionManager) (sid : String) (calls : List AppendCall) :
    SessionManager :=
  calls.foldl (fun acc a => (add_message_to_session acc a.time sid a.text a.isUser).2) m

/-- The session-level effect of a sequence of successful appends. -/
def runSteps (s : Session) (calls : List AppendCall) : Session :=
  calls.foldl (fun acc a => stepSession acc a.text a.isUser a.time) s

/-- The most recent 10 elements of a list (all of it when it is shorter). -/
def lastTen (l : List Message) : List Message := l.drop (l.length - 10)

/-- `validGaps timeout prev calls` holds when each call of the sequence
happens no later than `timeout` after the previous activity instant, so no
call finds the session expired. -/
def validGaps (timeout : Int) (prev : Int) : List AppendCall → Bool
  | [] => true
  | a :: rest => decide (a.time - prev ≤ timeout) && validGaps timeout a.time rest

/-- The keys of the store, in order. -/
def sessionIds (l : List (String × Session)) : List String := l.map Prod.fst

/-! ### Lookup characterizations for the association-list dict model -/

theorem lookupSession_nil (sid : String) : lookupSession [] sid = none := rfl

theorem lookupSession_cons (k : String) (v : Session) (rest : List (String × Session))
    (sid : String) :
    lookupSession ((k, v) :: rest) sid =
      if k = sid then some v else lookupSession rest sid := rfl

theorem lookupSession_eq_none_of_not_mem (l : List (String × Session)) (sid : String)
    (h : sid ∉ sessionIds l) : lookupSession l sid = none := by
  induction l with
  | nil => rfl
  | cons p rest ih =>
    obtain ⟨k, v⟩ := p
    simp only [sessionIds, List.map_cons, List.mem_cons] at h
    push_neg at h
    rw [lookupSession_cons, if_neg (fun hh => h.1 hh.symm),
      ih (by simpa [sessionIds] using h.2)]

theorem mem_of_lookupSession_eq_some (l : List (String × Session)) (sid : String)
    (s : Session) (h : lookupSession l sid = some s) : (sid, s) ∈ l := by
  induction l with
  | nil => simp [lookupSession] at h
  | cons p rest ih =>
    obtain ⟨k, v⟩ := p
    rw [lookupSession_cons] at h
    by_cases hk : k = sid
    · rw [if_pos hk] at h
      subst hk
      simp only [Option.some.injEq] at h
      subst h
      exact List.mem_cons_self _ _
    · rw [if_neg hk] at h
      exact List.mem_cons_of_mem _ (ih h)

theorem lookupSession_eq_some_of_mem (l : List (String × Session)) (sid : String)
    (s : Session) (hnd : (sessionIds l).Nodup) (h : (sid, s) ∈ l) :
    lookupSession l sid = some s := by
  induction l with
  | nil => simp at h
  | cons p rest ih =>
    obtain ⟨k, v⟩ := p
    simp only [sessionIds, List.map_cons, List.nodup_cons] at hnd
    rcases List.mem_cons.mp h with h1 | h1
    · obtain ⟨hk, hv⟩ := Prod.mk.inj h1
      rw [lookupSession_cons, if_pos hk.symm, hv]
    · have hk : k ≠ sid := by
        intro hkk
        subst hkk
        exact hnd.1 (by simpa [sessionIds] using List.mem_map_of_mem Prod.fst h1)
      rw [lookupSession_cons, if_neg hk]
      exact ih (by simpa [sessionIds] using hnd.2) h1

theorem lookupSession_erase_self (l : List (String × Session)) (sid : String)
    (hnd : (sessionIds l).Nodup) :
    lookupSession (eraseSession l sid) sid = none := by
  induction l with
  | nil => rfl
  | cons p rest ih =>
    obtain ⟨k, v⟩ := p
    simp only [sessionIds, List.map_cons, List.nodup_cons] at hnd
    by_cases hk : k = sid
    · subst hk
      rw [eraseSession, if_pos rfl]
      exact lookupSession_eq_none_of_not_mem _ _ (by simpa [sessionIds] using hnd.1)
    · rw [eraseSession, if_neg hk, lookupSession_cons, if_neg hk]
      exact ih (by simpa [sessionIds] using hnd.2)

theorem lookupSession_erase_ne (l : List (String × Session)) (sid sid2 : String)
    (h : sid2 ≠ sid) :
    lookupSession (eraseSession l sid) sid2 = lookupSession l sid2 := by
  induction l with
  | nil => rfl
  | cons p rest ih =>
    obtain ⟨k, v⟩ := p
    by_cases hk : k = sid
    · subst hk
      rw [eraseSession, if_pos rfl, lookupSession_cons, if_neg (fun hh => h hh.symm)]
    · rw [eraseSession, if_neg hk, lookupSession_cons, lookupSession_cons, ih]

theorem lookupSession_update_self (l : List (String × Session)) (sid : String)
    (f : Session → Session) :
    lookupSession (updateSession l sid f) sid = (lookupSession l sid).map f := by
  induction l with
  | nil => rfl
  | cons p rest ih =>
    obtain ⟨k, v⟩ := p
    by_cases hk : k = sid
    · rw [updateSession, if_pos hk, lookupSession_cons, if_pos hk,
        lookupSession_cons, if_pos hk]
      rfl
    · rw [updateSession, if_neg hk, lookupSession_cons, if_neg hk,
        lookupSession_cons, if_neg hk, ih]

theorem lookupSession_update_ne (l : List (String × Session)) (sid sid2 : String)
    (f : Session → Session) (h : sid2 ≠ sid) :
    lookupSession (updateSession l sid f) sid2 = lookupSession l sid2 := by
  induction l with
  | nil => rfl
  | cons p rest ih =>
    obtain ⟨k, v⟩ := p
    by_cases hk : k = sid
    · subst hk
      rw [updateSession, if_pos rfl, lookupSession_cons,
        lookupSession_cons, if_neg (fun hh => h hh.symm), if_neg (fun hh => h hh.symm)]
    · rw [updateSession, if_neg hk, lookupSession_cons, lookupSession_cons, ih]

theorem lookupSession_insert_self (l : List (String × Session)) (sid : String)
    (s : Session) :
    lookupSession (insertSession l sid s) sid = some s := by
  induction l with
  | nil => simp [insertSession, lookupSession]
  | cons p rest ih =>
    obtain ⟨k, v⟩ := p
    by_cases hk : k = sid
    · rw [insertSession, if_pos hk, lookupSession_cons, if_pos hk]
    · rw [insertSession, if_neg hk, lookupSession_cons, if_neg hk, ih]

theorem lookupSession_insert_ne (l : List (String × Session)) (sid sid2 : String)
    (s : Session) (h : sid2 ≠ sid) :
    lookupSession (insertSession l sid s) sid2 = lookupSession l sid2 := by
  induction l with
  | nil =>
    have hne : sid ≠ sid2 := fun hh => h hh.symm
    simp [insertSession, lookupSession, hne]
  | cons p rest ih =>
    obtain ⟨k, v⟩ := p
    by_cases hk : k = sid
    · subst hk
      rw [insertSession, if_pos rfl, lookupSession_cons,
        lookupSession_cons, if_neg (fun hh => h hh.symm), if_neg (fun hh => h hh.symm)]
    · rw [insertSession, if_neg hk, lookupSession_cons, lookupSession_cons, ih]

/-! ### The bounded-history truncation -/

theorem length_lastTen_le (l : List Message) : (lastTen l).length ≤ 10 := by
  rw [lastTen, List.length_drop]
  omega

theorem lastTen_of_length_le (l : List Message) (h : l.length ≤ 10) :
    lastTen l = l := by
  rw [lastTen, Nat.sub_eq_zero_of_le h, List.drop_zero]

theorem lastTen_append (l₁ l₂ : List Message) :
    lastTen (lastTen l₁ ++ l₂) = lastTen (l₁ ++ l₂) := by
  unfold lastTen
  have hsplit : l₁.drop (l₁.length - 10) ++ l₂
      = (l₁ ++ l₂).drop (l₁.length - 10) :=
    (List.drop_append_of_le_length (Nat.sub_le l₁.length 10)).symm
  rw [hsplit, List.drop_drop]
  congr 1
  simp only [List.length_drop, List.length_append]
  omega

theorem appendStep_messages (now : Int) (s : Session) (text : String)
    (isUser : Bool) :
    (appendStep now s text isUser).messages =
      lastTen (s.messages ++ [mkMessage text isUser now]) := by
  unfold appendStep lastTen
  by_cases h : (s.messages ++ [mkMessage text isUser now]).length > 10
  · simp only [if_pos h]
  · simp only [if_neg h]
    rw [Nat.sub_eq_zero_of_le (by omega), List.drop_zero]

theorem appendStep_query_count (now : Int) (s : Session) (text : String)
    (isUser : Bool) :
    (appendStep now s text isUser).query_count =
      s.query_count + (if isUser then 1 else 0) := by
  unfold appendStep
  by_cases h : isUser <;> simp [h]

theorem stepSession_messages (s : Session) (a : AppendCall) :
    (stepSession s a.text a.isUser a.time).messages =
      lastTen (s.messages ++ [a.toMessage]) := by
  rw [stepSession]
  exact appendStep_messages a.time s a.text a.isUser

theorem stepSession_query_count (s : Session) (a : AppendCall) :
    (stepSession s a.text a.isUser a.time).query_count =
      s.query_count + (if a.isUser then 1 else 0) := by
  rw [stepSession]
  exact appendStep_query_count a.time s a.text a.isUser

theorem stepSession_last_activity (s : Session) (text : String) (isUser : Bool)
    (now : Int) : (stepSession s text isUser now).last_activity = now := rfl

theorem runSteps_messages (calls : List AppendCall) :
    ∀ s : Session, s.messages.length ≤ 10 →
      (runSteps s calls).messages = lastTen (s.messages ++ calls.map AppendCall.toMessage) := by
  induction calls with
  | nil =>
    intro s h
    rw [runSteps, List.foldl_nil, List.map_nil, List.append_nil,
      lastTen_of_length_le _ h]
  | cons a as ih =>
    intro s h
    rw [runSteps, List.foldl_cons]
    have hlen : (stepSession s a.text a.isUser a.time).messages.length ≤ 10 := by
      rw [stepSession_messages]
      exact length_lastTen_le _
    have := ih (stepSession s a.text a.isUser a.time) hlen
    rw [runSteps] at this
    rw [this, stepSession_messages, lastTen_append, List.append_assoc,
      List.singleton_append, List.map_cons]

theorem runSteps_query_count (calls : List AppendCall) :
    ∀ s : Session,
      (runSteps s calls).query_count =
        s.query_count + ((calls.filter (fun a => a.isUser)).length : Int) := by
  induction calls with
  | nil =>
    intro s
    rw [runSteps, List.foldl_nil, List.filter_nil, List.length_nil]
    simp
  | cons a as ih =>
    intro s
    rw [runSteps, List.foldl_cons]
    have := ih (stepSession s a.text a.isUser a.time)
    rw [runSteps] at this
    rw [this, stepSession_query_count, List.filter_cons]
    by_cases h : a.isUser
    · simp only [h, if_pos]
      rw [List.length_cons]
      push_cast
      ring
    · simp only [h]
      simp

theorem add_message_singleton (sid text : String) (b : Bool) (now : Int) (s : Session)
    (h : now - s.last_activity ≤ 3600) :
    add_message_to_session { sessions := [(sid, s)], session_timeout := 3600 } now sid text b =
      (true, { sessions := [(sid, stepSession s text b now)], session_timeout := 3600 }) := by
  have hexp : is_session_expired { sessions := [(sid, s)], session_timeout := 3600 } now s
      = false := by
    simp only [is_session_expired, decide_eq_false_iff_not, not_lt]
    omega
  simp [add_message_to_session, get_session, lookupSession, hexp, updateSession,
    update_session_activity, stepSession]

theorem runAppends_singleton (sid : String) (calls : List AppendCall) :
    ∀ s : Session, validGaps 3600 s.last_activity calls = true →
      runAppends { sessions := [(sid, s)], session_timeout := 3600 } sid calls =
        { sessions := [(sid, runSteps s calls)], session_timeout := 3600 } := by
  induction calls with
  | nil => intro s _; rfl
  | cons a as ih =>
    intro s hv
    rw [validGaps, Bool.and_eq_true, decide_eq_true_eq] at hv
    rw [runAppends, List.foldl_cons,
      add_message_singleton sid a.text a.isUser a.time s hv.1]
    have hv2 : validGaps 3600 (stepSession s a.text a.isUser a.time).last_activity as
        = true := by
      rw [stepSession_last_activity]
      exact hv.2
    have := ih (stepSession s a.text a.isUser a.time) hv2
    rw [runAppends] at this
    rw [this]
    rfl

theorem runSteps_last_activity_eq (calls : List AppendCall) :
    ∀ s : Session,
      (runSteps s calls).last_activity =
        (calls.map AppendCall.time).foldl (fun _ t => t) s.last_activity := by
  induction calls with
  | nil => intro s; rfl
  | cons a as ih =>
    intro s
    rw [runSteps, List.foldl_cons, List.map_cons, List.foldl_cons]
    have := ih (stepSession s a.text a.isUser a.time)
    rw [runSteps] at this
    rw [this, stepSession_last_activity]

/-! ### Store effect of each operation -/

theorem get_session_lookup_none (m : SessionManager) (now : Int) (sid : String)
    (h : lookupSession m.sessions sid = none) :
    get_session m now sid = (none, m) := by
  simp only [get_session, h]

theorem get_session_lookup_live (m : SessionManager) (now : Int) (sid : String)
    (s : Session) (h : lookupSession m.sessions sid = some s)
    (he : is_session_expired m now s = false) :
    get_session m now sid = (some s, m) := by
  simp only [get_session, h, he, Bool.false_eq_true, if_false]

theorem get_session_lookup_expired (m : SessionManager) (now : Int) (sid : String)
    (s : Session) (h : lookupSession m.sessions sid = some s)
    (he : is_session_expired m now s = true) :
    get_session m now sid =
      (none, { m with sessions := eraseSession m.sessions sid }) := by
  simp only [get_session, h, he, if_true]

theorem get_conversation_history_snd (m : SessionManager) (now : Int) (sid : String) :
    (get_conversation_history m now sid).2 = (get_session m now sid).2 := by
  cases hg : get_session m now sid with
  | mk o m1 => cases o <;> simp [get_conversation_history, hg]

theorem can_make_query_snd (m : SessionManager) (now : Int) (sid : String) :
    (can_make_query m now sid).2 = (get_session m now sid).2 := by
  cases hg : get_session m now sid with
  | mk o m1 => cases o <;> simp [can_make_query, hg]

theorem get_remaining_queries_snd (m : SessionManager) (now : Int) (sid : String) :
    (get_remaining_queries m now sid).2 = (get_session m now sid).2 := by
  cases hg : get_session m now sid with
  | mk o m1 => cases o <;> simp [get_remaining_queries, hg]

theorem get_session_none_of_absent_after (m : SessionManager) (now : Int) (sid : String)
    (hnd : (sessionIds m.sessions).Nodup)
    (h : (get_session m now sid).1 = none) :
    lookupSession ((get_session m now sid).2).sessions sid = none := by
  cases hl : lookupSession m.sessions sid with
  | none => rw [get_session_lookup_none m now sid hl]; exact hl
  | some s =>
    cases he : is_session_expired m now s with
    | false =>
      rw [get_session_lookup_live m now sid s hl he] at h
      simp at h
    | true =>
      rw [get_session_lookup_expired m now sid s hl he]
      exact lookupSession_erase_self m.sessions sid hnd

theorem get_session_store_of_present (m : SessionManager) (now : Int) (sid : String)
    (s : Session) (h : (get_session m now sid).1 = some s) :
    (get_session m now sid).2 = m := by
  cases hl : lookupSession m.sessions sid with
  | none => rw [get_session_lookup_none m now sid hl]
  | some s2 =>
    cases he : is_session_expired m now s2 with
    | false => rw [get_session_lookup_live m now sid s2 hl he]
    | true =>
      rw [get_session_lookup_expired m now sid s2 hl he] at h
      simp at h

/-! ### The sweep: erasing a batch of keys -/

theorem sessionIds_erase_sublist (l : List (String × Session)) (sid : String) :
    (sessionIds (eraseSession l sid)).Sublist (sessionIds l) := by
  induction l with
  | nil => simp [eraseSession, sessionIds]
  | cons p rest ih =>
    obtain ⟨k, v⟩ := p
    by_cases hk : k = sid
    · rw [eraseSession, if_pos hk]
      exact List.sublist_cons_of_sublist k (List.Sublist.refl _)
    · rw [eraseSession, if_neg hk]
      exact List.Sublist.cons₂ k ih

theorem nodup_sessionIds_erase (l : List (String × Session)) (sid : String)
    (hnd : (sessionIds l).Nodup) : (sessionIds (eraseSession l sid)).Nodup :=
  (sessionIds_erase_sublist l sid).nodup hnd

theorem length_eraseSession_of_mem (l : List (String × Session)) (sid : String)
    (h : sid ∈ sessionIds l) : (eraseSession l sid).length + 1 = l.length := by
  induction l with
  | nil => simp [sessionIds] at h
  | cons p rest ih =>
    obtain ⟨k, v⟩ := p
    by_cases hk : k = sid
    · rw [eraseSession, if_pos hk, List.length_cons]
    · rw [eraseSession, if_neg hk, List.length_cons, List.length_cons]
      have : sid ∈ sessionIds rest := by
        rcases List.mem_cons.mp h with h1 | h1
        · exact absurd h1.symm hk
        · exact h1
      rw [← ih this]

theorem mem_sessionIds_erase (l : List (String × Session)) (sid k : String)
    (hk : k ∈ sessionIds l) (hne : k ≠ sid) :
    k ∈ sessionIds (eraseSession l sid) := by
  induction l with
  | nil => simp [sessionIds] at hk
  | cons p rest ih =>
    obtain ⟨k2, v⟩ := p
    by_cases h2 : k2 = sid
    · rw [eraseSession, if_pos h2]
      rcases List.mem_cons.mp hk with h1 | h1
      · exact absurd (h1.trans h2) hne
      · exact h1
    · rw [eraseSession, if_neg h2]
      simp only [sessionIds, List.map_cons, List.mem_cons]
      rcases List.mem_cons.mp hk with h1 | h1
      · exact Or.inl h1
      · exact Or.inr (ih h1)

theorem lookupSession_foldl_erase (ids : List String) :
    ∀ l : List (String × Session), (sessionIds l).Nodup → ∀ k : String,
      lookupSession (ids.foldl (fun acc sid => eraseSession acc sid) l) k =
        if k ∈ ids then none else lookupSession l k := by
  induction ids with
  | nil =>
    intro l _ k
    simp
  | cons i ids ih =>
    intro l hnd k
    rw [List.foldl_cons]
    rw [ih (eraseSession l i) (nodup_sessionIds_erase l i hnd) k]
    by_cases hmem : k ∈ ids
    · rw [if_pos hmem, if_pos (List.mem_cons_of_mem i hmem)]
    · rw [if_neg hmem]
      by_cases hki : k = i
      · subst hki
        rw [lookupSession_erase_self l k hnd, if_pos (List.mem_cons_self k ids)]
      · rw [lookupSession_erase_ne l i k hki,
          if_neg (by simp [hki, hmem])]

theorem length_foldl_erase (ids : List String) :
    ∀ l : List (String × Session), ids.Nodup →
      (∀ i ∈ ids, i ∈ sessionIds l) →
      (ids.foldl (fun acc sid => eraseSession acc sid) l).length + ids.length = l.length := by
  induction ids with
  | nil => intro l _ _; simp
  | cons i ids ih =>
    intro l hnd hmem
    rw [List.foldl_cons, List.length_cons]
    rw [List.nodup_cons] at hnd
    have hi : i ∈ sessionIds l := hmem i (List.mem_cons_self i ids)
    have hrest : ∀ j ∈ ids, j ∈ sessionIds (eraseSession l i) := by
      intro j hj
      exact mem_sessionIds_erase l i j (hmem j (List.mem_cons_of_mem i hj))
        (fun hji => hnd.1 (hji ▸ hj))
    have := ih (eraseSession l i) hnd.2 hrest
    have hlen := length_eraseSession_of_mem l i hi
    omega

/-! ### Characterizing `cleanup_expired_sessions` -/

/-- The ids collected by the sweep's first loop. -/
def expiredIds (m : SessionManager) (now : Int) : List String :=
  (m.sessions.filter (fun p => is_session_expired m now p.2)).map Prod.fst

theorem cleanup_expired_sessions_eq (m : SessionManager) (now : Int) :
    cleanup_expired_sessions m now =
      ((expiredIds m now).length,
        { m with sessions :=
            ((expiredIds m now).foldl (fun l sid => eraseSession l sid) m.sessions) }) := rfl

theorem expiredIds_nodup (m : SessionManager) (now : Int)
    (hnd : (sessionIds m.sessions).Nodup) : (expiredIds m now).Nodup := by
  have hsub : (expiredIds m now).Sublist (sessionIds m.sessions) :=
    (List.filter_sublist m.sessions).map Prod.fst
  exact hsub.nodup hnd

theorem expiredIds_subset (m : SessionManager) (now : Int) :
    ∀ k ∈ expiredIds m now, k ∈ sessionIds m.sessions := by
  intro k hk
  have hsub : (expiredIds m now).Sublist (sessionIds m.sessions) :=
    (List.filter_sublist m.sessions).map Prod.fst
  exact hsub.mem hk

theorem mem_expiredIds (m : SessionManager) (now : Int) (k : String)
    (hnd : (sessionIds m.sessions).Nodup) :
    k ∈ expiredIds m now ↔
      ∃ s, lookupSession m.sessions k = some s ∧ is_session_expired m now s = true := by
  constructor
  · intro hk
    obtain ⟨p, hp, hpk⟩ := List.mem_map.mp hk
    obtain ⟨hmem, hpred⟩ := List.mem_filter.mp hp
    refine ⟨p.2, ?_, by simpa using hpred⟩
    have : (k, p.2) = p := by
      obtain ⟨a, b⟩ := p
      simp only at hpk
      rw [hpk]
    rw [← this] at hmem
    exact lookupSession_eq_some_of_mem m.sessions k p.2 hnd hmem
  · rintro ⟨s, hl, he⟩
    have hmem : (k, s) ∈ m.sessions := mem_of_lookupSession_eq_some m.sessions k s hl
    have : (k, s) ∈ m.sessions.filter (fun p => is_session_expired m now p.2) :=
      List.mem_filter.mpr ⟨hmem, by simpa using he⟩
    exact List.mem_map.mpr ⟨(k, s), this, rfl⟩

theorem cleanup_lookup (m : SessionManager) (now : Int)
    (hnd : (sessionIds m.sessions).Nodup) (sid : String) :
    lookupSession ((cleanup_expired_sessions m now).2).sessions sid =
      (get_session m now sid).1 := by
  rw [cleanup_expired_sessions_eq]
  rw [lookupSession_foldl_erase (expiredIds m now) m.sessions hnd sid]
  cases hl : lookupSession m.sessions sid with
  | none =>
    have hni : sid ∉ expiredIds m now := by
      intro hmem
      obtain ⟨s, hs, _⟩ := (mem_expiredIds m now sid hnd).mp hmem
      rw [hl] at hs
      exact Option.noConfusion hs
    rw [if_neg hni, get_session_lookup_none m now sid hl]
  | some s =>
    cases he : is_session_expired m now s with
    | true =>
      have hi : sid ∈ expiredIds m now :=
        (mem_expiredIds m now sid hnd).mpr ⟨s, hl, he⟩
      rw [if_pos hi, get_session_lookup_expired m now sid s hl he]
    | false =>
      have hni : sid ∉ expiredIds m now := by
        intro hmem
        obtain ⟨s2, hs2, he2⟩ := (mem_expiredIds m now sid hnd).mp hmem
        rw [hl] at hs2
        obtain rfl : s = s2 := Option.some.inj hs2
        rw [he] at he2
        exact Bool.noConfusion he2
      rw [if_neg hni, get_session_lookup_live m now sid s hl he]

theorem cleanup_count (m : SessionManager) (now : Int)
    (hnd : (sessionIds m.sessions).Nodup) :
    (cleanup_expired_sessions m now).1 +
      ((cleanup_expired_sessions m now).2).sessions.length = m.sessions.length := by
  rw [cleanup_expired_sessions_eq]
  dsimp only
  have := length_foldl_erase (expiredIds m now) m.sessions
    (expiredIds_nodup m now hnd) (expiredIds_subset m now)
  omega

/-! ### Characterizing `add_message_to_session` -/

theorem updateSession_updateSession (l : List (String × Session)) (sid : String)
    (f g : Session → Session) :
    updateSession (updateSession l sid f) sid g =
      updateSession l sid (fun s => g (f s)) := by
  induction l with
  | nil => rfl
  | cons p rest ih =>
    obtain ⟨k, v⟩ := p
    by_cases hk : k = sid
    · rw [updateSession, if_pos hk, updateSession, if_pos hk, updateSession, if_pos hk]
    · rw [updateSession, if_neg hk, updateSession, if_neg hk, updateSession, if_neg hk, ih]

theorem add_message_absent (m : SessionManager) (now : Int) (sid : String)
    (text : String) (b : Bool) (h : (get_session m now sid).1 = none) :
    add_message_to_session m now sid text b = (false, (get_session m now sid).2) := by
  cases hg : get_session m now sid with
  | mk o m1 =>
    cases o with
    | none => simp [add_message_to_session, hg]
    | some s => rw [hg] at h; simp at h

theorem add_message_present (m : SessionManager) (now : Int) (sid : String)
    (text : String) (b : Bool) (s : Session)
    (hl : lookupSession m.sessions sid = some s)
    (he : is_session_expired m now s = false) :
    add_message_to_session m now sid text b =
      (true, { m with sessions :=
          (updateSession m.sessions sid (fun _ => stepSession s text b now)) }) := by
  simp only [add_message_to_session, get_session_lookup_live m now sid s hl he]
  have hlu : lookupSession
      (updateSession m.sessions sid (fun _ => appendStep now s text b)) sid
      = some (appendStep now s text b) := by
    rw [lookupSession_update_self, hl]
    rfl
  simp only [update_session_activity, hlu]
  rw [updateSession_updateSession]
  rfl

/-! ### Monotonicity of `query_count` -/

/-- `query_count` never decreases between two store states, for every session
present in both. -/
def qcMono (m m2 : SessionManager) : Prop :=
  ∀ sid s s2, lookupSession m.sessions sid = some s →
    lookupSession m2.sessions sid = some s2 → s.query_count ≤ s2.query_count

theorem qcMono_self (m : SessionManager) : qcMono m m := by
  intro sid s s2 h1 h2
  rw [h1] at h2
  obtain rfl := Option.some.inj h2
  exact le_refl _

theorem qcMono_get_session (m : SessionManager) (now : Int) (sid : String)
    (hnd : (sessionIds m.sessions).Nodup) :
    qcMono m (get_session m now sid).2 := by
  cases hl : lookupSession m.sessions sid with
  | none => rw [get_session_lookup_none m now sid hl]; exact qcMono_self m
  | some s =>
    cases he : is_session_expired m now s with
    | false => rw [get_session_lookup_live m now sid s hl he]; exact qcMono_self m
    | true =>
      rw [get_session_lookup_expired m now sid s hl he]
      intro k s1 s2 h1 h2
      by_cases hk : k = sid
      · subst hk
        rw [show ({ m with sessions := eraseSession m.sessions k } : SessionManager).sessions
            = eraseSession m.sessions k from rfl,
          lookupSession_erase_self m.sessions k hnd] at h2
        exact Option.noConfusion h2
      · rw [show ({ m with sessions := eraseSession m.sessions sid } : SessionManager).sessions
            = eraseSession m.sessions sid from rfl,
          lookupSession_erase_ne m.sessions sid k hk, h1] at h2
        obtain rfl := Option.some.inj h2
        exact le_refl _

theorem qcMono_update_activity (m : SessionManager) (now : Int) (sid : String) :
    qcMono m (update_session_activity m now sid) := by
  cases hl : lookupSession m.sessions sid with
  | none => simp only [update_session_activity, hl]; exact qcMono_self m
  | some s =>
    simp only [update_session_activity, hl]
    intro k s1 s2 h1 h2
    by_cases hk : k = sid
    · subst hk
      rw [show ({ m with sessions :=
            (updateSession m.sessions k (fun s => { s with last_activity := now })) }
            : SessionManager).sessions
          = updateSession m.sessions k (fun s => { s with last_activity := now }) from rfl,
        lookupSession_update_self, h1] at h2
      obtain rfl := Option.some.inj h2
      exact le_refl _
    · rw [show ({ m with sessions :=
            (updateSession m.sessions sid (fun s => { s with last_activity := now })) }
            : SessionManager).sessions
          = updateSession m.sessions sid (fun s => { s with last_activity := now }) from rfl,
        lookupSession_update_ne m.sessions sid k _ hk, h1] at h2
      obtain rfl := Option.some.inj h2
      exact le_refl _

theorem stepSession_query_count_ge (s : Session) (text : String) (b : Bool)
    (now : Int) : s.query_count ≤ (stepSession s text b now).query_count := by
  rw [stepSession, appendStep_query_count]
  by_cases h : b <;> simp [h]

theorem qcMono_add_message (m : SessionManager) (now : Int) (sid : String)
    (text : String) (b : Bool) (hnd : (sessionIds m.sessions).Nodup) :
    qcMono m (add_message_to_session m now sid text b).2 := by
  cases hl : lookupSession m.sessions sid with
  | none =>
    rw [add_message_absent m now sid text b
      (by rw [get_session_lookup_none m now sid hl])]
    exact qcMono_get_session m now sid hnd
  | some s =>
    cases he : is_session_expired m now s with
    | true =>
      rw [add_message_absent m now sid text b
        (by rw [get_session_lookup_expired m now sid s hl he])]
      exact qcMono_get_session m now sid hnd
    | false =>
      rw [add_message_present m now sid text b s hl he]
      intro k s1 s2 h1 h2
      by_cases hk : k = sid
      · subst hk
        rw [show ({ m with sessions :=
              (updateSession m.sessions k (fun _ => stepSession s text b now)) }
              : SessionManager).sessions
            = updateSession m.sessions k (fun _ => stepSession s text b now) from rfl,
          lookupSession_update_self, h1] at h2
        obtain rfl := Option.some.inj h2
        rw [hl] at h1
        obtain rfl := Option.some.inj h1
        exact stepSession_query_count_ge s text b now
      · rw [show ({ m with sessions :=
              (updateSession m.sessions sid (fun _ => stepSession s text b now)) }
              : SessionManager).sessions
            = updateSession m.sessions sid (fun _ => stepSession s text b now) from rfl,
          lookupSession_update_ne m.sessions sid k _ hk, h1] at h2
        obtain rfl := Option.some.inj h2
        exact le_refl _

theorem qcMono_cleanup (m : SessionManager) (now : Int)
    (hnd : (sessionIds m.sessions).Nodup) :
    qcMono m (cleanup_expired_sessions m now).2 := by
  intro k s1 s2 h1 h2
  rw [cleanup_lookup m now hnd k] at h2
  cases hl : lookupSession m.sessions k with
  | none => rw [hl] at h1; exact Option.noConfusion h1
  | some s =>
    rw [hl] at h1
    obtain rfl := Option.some.inj h1
    cases he : is_session_expired m now s with
    | true =>
      rw [get_session_lookup_expired m now k s hl he] at h2
      exact Option.noConfusion h2
    | false =>
      rw [get_session_lookup_live m now k s hl he] at h2
      obtain rfl := Option.some.inj h2
      exact le_refl _

theorem qcMono_create (m : SessionManager) (now : Int) (sid : String)
    (hfresh : lookupSession m.sessions sid = none) :
    qcMono m (create_session m now sid).2 := by
  intro k s1 s2 h1 h2
  by_cases hk : k = sid
  · subst hk
    rw [h1] at hfresh
    exact Option.noConfusion hfresh
  · rw [show ((create_session m now sid).2).sessions
        = insertSession m.sessions sid (freshSession now) from rfl,
      lookupSession_insert_ne m.sessions sid k _ hk, h1] at h2
    obtain rfl := Option.some.inj h2
    exact le_refl _

theorem qcMono_history (m : SessionManager) (now : Int) (sid : String)
    (hnd : (sessionIds m.sessions).Nodup) :
    qcMono m (get_conversation_history m now sid).2 := by
  rw [get_conversation_history_snd]
  exact qcMono_get_session m now sid hnd

theorem qcMono_can_make_query (m : SessionManager) (now : Int) (sid : String)
    (hnd : (sessionIds m.sessions).Nodup) :
    qcMono m (can_make_query m now sid).2 := by
  rw [can_make_query_snd]
  exact qcMono_get_session m now sid hnd

theorem qcMono_remaining (m : SessionManager) (now : Int) (sid : String)
    (hnd : (sessionIds m.sessions).Nodup) :
    qcMono m (get_remaining_queries m now sid).2 := by
  rw [get_remaining_queries_snd]
  exact qcMono_get_session m now sid hnd

/-! ## The claims -/

/-- C1: for every session and every sequence of `add_message_to_session`
calls on it (each call within the expiry window, so that it succeeds), the
history returned by `get_conversation_history` never has more than 10
messages, and after appending M > 10 messages it is exactly the last 10
appended messages in their original relative order. -/
theorem claim_C1_bounded_history (t0 tq : Int) (sid : String)
    (calls : List AppendCall)
    (hgaps : validGaps 3600 t0 calls = true)
    (hq : tq - (runSteps (freshSession t0) calls).last_activity ≤ 3600) :
    ((get_conversation_history
        (runAppends (create_session initSessionManager t0 sid).2 sid calls)
        tq sid).1).length ≤ 10 ∧
    (10 < calls.length →
      (get_conversation_history
          (runAppends (create_session initSessionManager t0 sid).2 sid calls)
          tq sid).1
        = (calls.map AppendCall.toMessage).drop (calls.length - 10)) := by
  have hm0 : (create_session initSessionManager t0 sid).2
      = { sessions := [(sid, freshSession t0)], session_timeout := 3600 } := rfl
  have hrun := runAppends_singleton sid calls (freshSession t0) hgaps
  have hlook : lookupSession [(sid, runSteps (freshSession t0) calls)] sid
      = some (runSteps (freshSession t0) calls) := by
    simp [lookupSession]
  have hexp : is_session_expired
      { sessions := [(sid, runSteps (freshSession t0) calls)], session_timeout := 3600 }
      tq (runSteps (freshSession t0) calls) = false := by
    simp only [is_session_expired, decide_eq_false_iff_not, not_lt]
    exact le_trans (by omega) (le_refl (3600 : Int))
  have hget := get_session_lookup_live
    { sessions := [(sid, runSteps (freshSession t0) calls)], session_timeout := 3600 }
    tq sid (runSteps (freshSession t0) calls) hlook hexp
  have hhist : (get_conversation_history
      { sessions := [(sid, runSteps (freshSession t0) calls)], session_timeout := 3600 }
      tq sid).1 = (runSteps (freshSession t0) calls).messages := by
    simp [get_conversation_history, hget]
  have hmsgs : (runSteps (freshSession t0) calls).messages
      = lastTen (calls.map AppendCall.toMessage) := by
    have := runSteps_messages calls (freshSession t0) (by simp [freshSession])
    simpa [freshSession] using this
  rw [hm0, hrun, hhist, hmsgs]
  constructor
  · exact length_lastTen_le _
  · intro hlen
    rw [lastTen, List.length_map]

/-- Witness for C1: eleven appends on a fresh session leave exactly the last
ten messages, in order. -/
theorem claim_C1_bounded_history_witness :
    ((get_conversation_history
        (runAppends (create_session initSessionManager 0 "s").2 "s"
          ((List.range 11).map (fun i => AppendCall.mk (toString i) true 0)))
        0 "s").1).length ≤ 10 ∧
    (10 < ((List.range 11).map (fun i => AppendCall.mk (toString i) true 0)).length →
      (get_conversation_history
          (runAppends (create_session initSessionManager 0 "s").2 "s"
            ((List.range 11).map (fun i => AppendCall.mk (toString i) true 0)))
          0 "s").1
        = (((List.range 11).map (fun i => AppendCall.mk (toString i) true 0)).map
              AppendCall.toMessage).drop
            (((List.range 11).map (fun i => AppendCall.mk (toString i) true 0)).length - 10)) :=
  claim_C1_bounded_history 0 0 "s"
    ((List.range 11).map (fun i => AppendCall.mk (toString i) true 0))
    (by decide) (by decide)

/-- C2: starting from a fresh session, after a sequence of appends (each
within the expiry window) the session's `query_count` equals the number of
appended messages with `is_user = true`; moreover `query_count` never
decreases under any store operation (append, lookup, history, quota reads,
activity refresh, sweep, and creation of a fresh id). -/
theorem claim_C2_query_count (t0 : Int) (sid : String) (calls : List AppendCall)
    (m : SessionManager) (now : Int) (sid2 text : String) (b : Bool)
    (hgaps : validGaps 3600 t0 calls = true)
    (hnd : (sessionIds m.sessions).Nodup)
    (hfresh : lookupSession m.sessions sid2 = none) :
    ((lookupSession
        (runAppends (create_session initSessionManager t0 sid).2 sid calls).sessions
        sid).map Session.query_count
      = some (((calls.filter (fun a => a.isUser)).length : Int))) ∧
    qcMono m (add_message_to_session m now sid2 text b).2 ∧
    qcMono m (get_session m now sid2).2 ∧
    qcMono m (get_conversation_history m now sid2).2 ∧
    qcMono m (can_make_query m now sid2).2 ∧
    qcMono m (get_remaining_queries m now sid2).2 ∧
    qcMono m (update_session_activity m now sid2) ∧
    qcMono m (cleanup_expired_sessions m now).2 ∧
    qcMono m (create_session m now sid2).2 := by
  refine ⟨?_, qcMono_add_message m now sid2 text b hnd,
    qcMono_get_session m now sid2 hnd,
    qcMono_history m now sid2 hnd,
    qcMono_can_make_query m now sid2 hnd,
    qcMono_remaining m now sid2 hnd,
    qcMono_update_activity m now sid2,
    qcMono_cleanup m now hnd,
    qcMono_create m now sid2 hfresh⟩
  have hm0 : (create_session initSessionManager t0 sid).2
      = { sessions := [(sid, freshSession t0)], session_timeout := 3600 } := rfl
  have hrun := runAppends_singleton sid calls (freshSession t0) hgaps
  rw [hm0, hrun]
  have hlook : lookupSession [(sid, runSteps (freshSession t0) calls)] sid
      = some (runSteps (freshSession t0) calls) := by
    simp [lookupSession]
  dsimp only
  rw [hlook]
  have hqc := runSteps_query_count calls (freshSession t0)
  rw [Option.map_some', hqc]
  have h0 : (freshSession t0).query_count = 0 := rfl
  rw [h0, zero_add]

/-- Witness for C2: two user appends and one assistant append on a fresh
session give `query_count = 2`, instantiated together with the monotonicity
conjuncts on a concrete one-session store and a fresh id. -/
theorem claim_C2_query_count_witness :
    ((lookupSession
        (runAppends (create_session initSessionManager 0 "s").2 "s"
          [AppendCall.mk "hello" true 0, AppendCall.mk "hi" false 1,
            AppendCall.mk "again" true 2]).sessions
        "s").map Session.query_count
      = some ((([AppendCall.mk "hello" true 0, AppendCall.mk "hi" false 1,
            AppendCall.mk "again" true 2].filter (fun a => a.isUser)).length : Int))) ∧
    qcMono { sessions := [("a", freshSession 0)], session_timeout := 3600 }
      (add_message_to_session { sessions := [("a", freshSession 0)], session_timeout := 3600 }
        1 "b" "x" true).2 ∧
    qcMono { sessions := [("a", freshSession 0)], session_timeout := 3600 }
      (get_session { sessions := [("a", freshSession 0)], session_timeout := 3600 } 1 "b").2 ∧
    qcMono { sessions := [("a", freshSession 0)], session_timeout := 3600 }
      (get_conversation_history
        { sessions := [("a", freshSession 0)], session_timeout := 3600 } 1 "b").2 ∧
    qcMono { sessions := [("a", freshSession 0)], session_timeout := 3600 }
      (can_make_query { sessions := [("a", freshSession 0)], session_timeout := 3600 } 1 "b").2 ∧
    qcMono { sessions := [("a", freshSession 0)], session_timeout := 3600 }
      (get_remaining_queries
        { sessions := [("a", freshSession 0)], session_timeout := 3600 } 1 "b").2 ∧
    qcMono { sessions := [("a", freshSession 0)], session_timeout := 3600 }
      (update_session_activity
        { sessions := [("a", freshSession 0)], session_timeout := 3600 } 1 "b") ∧
    qcMono { sessions := [("a", freshSession 0)], session_timeout := 3600 }
      (cleanup_expired_sessions
        { sessions := [("a", freshSession 0)], session_timeout := 3600 } 1).2 ∧
    qcMono { sessions := [("a", freshSession 0)], session_timeout := 3600 }
      (create_session { sessions := [("a", freshSession 0)], session_timeout := 3600 } 1 "b").2 :=
  claim_C2_query_count 0 "s"
    [AppendCall.mk "hello" true 0, AppendCall.mk "hi" false 1, AppendCall.mk "again" true 2]
    { sessions := [("a", freshSession 0)], session_timeout := 3600 } 1 "b" "x" true
    (by decide) (by decide) (by decide)

/-- C3: for a stored session last active at `t0`, `get_session` at time `now`
returns the session (store untouched) when `now - t0` is at most the timeout,
and returns `none` while deleting the entry exactly when `now - t0` exceeds
the timeout. -/
theorem claim_C3_expiry (m : SessionManager) (now t0 : Int) (sid : String)
    (s : Session)
    (hnd : (sessionIds m.sessions).Nodup)
    (hl : lookupSession m.sessions sid = some s)
    (ht : s.last_activity = t0) :
    (now - t0 ≤ m.session_timeout → get_session m now sid = (some s, m)) ∧
    (m.session_timeout < now - t0 →
      (get_session m now sid).1 = none ∧
      lookupSession ((get_session m now sid).2).sessions sid = none) := by
  constructor
  · intro hle
    have he : is_session_expired m now s = false := by
      simp only [is_session_expired, decide_eq_false_iff_not, not_lt, ht]
      exact hle
    exact get_session_lookup_live m now sid s hl he
  · intro hgt
    have he : is_session_expired m now s = true := by
      simp only [is_session_expired, decide_eq_true_eq, ht]
      exact hgt
    rw [get_session_lookup_expired m now sid s hl he]
    exact ⟨rfl, lookupSession_erase_self m.sessions sid hnd⟩

/-- Witness for C3: a one-session store, last active at 0 with timeout 3600,
looked up at time 3600 (the boundary of the window). -/
theorem claim_C3_expiry_witness :
    (3600 - 0 ≤ (SessionManager.mk [("s", freshSession 0)] 3600).session_timeout →
      get_session (SessionManager.mk [("s", freshSession 0)] 3600) 3600 "s"
        = (some (freshSession 0), SessionManager.mk [("s", freshSession 0)] 3600)) ∧
    ((SessionManager.mk [("s", freshSession 0)] 3600).session_timeout < 3600 - 0 →
      (get_session (SessionManager.mk [("s", freshSession 0)] 3600) 3600 "s").1 = none ∧
      lookupSession
        ((get_session (SessionManager.mk [("s", freshSession 0)] 3600) 3600 "s").2).sessions
        "s" = none) :=
  claim_C3_expiry (SessionManager.mk [("s", freshSession 0)] 3600)
    3600 0 "s" (freshSession 0) (by decide) (by decide) (by decide)

/-- C4: the sweep removes exactly the sessions `get_session` would report
absent at the same instant — after the sweep, every id's stored entry equals
what `get_session` returns for it — and the returned count equals the number
of entries removed. -/
theorem claim_C4_sweep_equivalence (m : SessionManager) (now : Int)
    (hnd : (sessionIds m.sessions).Nodup) :
    (∀ sid, lookupSession ((cleanup_expired_sessions m now).2).sessions sid
        = (get_session m now sid).1) ∧
    (cleanup_expired_sessions m now).1 +
        ((cleanup_expired_sessions m now).2).sessions.length = m.sessions.length :=
  ⟨cleanup_lookup m now hnd, cleanup_count m now hnd⟩

/-- Witness for C4: a store with one expired and one live session at lookup
time 4000. -/
theorem claim_C4_sweep_equivalence_witness :
    (∀ sid, lookupSession
        ((cleanup_expired_sessions
          (SessionManager.mk [("a", freshSession 0), ("b", freshSession 3000)] 3600)
          4000).2).sessions sid
        = (get_session
            (SessionManager.mk [("a", freshSession 0), ("b", freshSession 3000)] 3600)
            4000 sid).1) ∧
    (cleanup_expired_sessions
        (SessionManager.mk [("a", freshSession 0), ("b", freshSession 3000)] 3600) 4000).1 +
      ((cleanup_expired_sessions
          (SessionManager.mk [("a", freshSession 0), ("b", freshSession 3000)] 3600)
          4000).2).sessions.length
      = (SessionManager.mk [("a", freshSession 0), ("b", freshSession 3000)] 3600).sessions.length :=
  claim_C4_sweep_equivalence
    (SessionManager.mk [("a", freshSession 0), ("b", freshSession 3000)] 3600)
    4000 (by decide)

/-- C5: the store does not enforce the quota on mutation: for a present,
non-expired session whose `query_count` has reached `max_queries`, a further
`add_message_to_session` still returns `True` and appends the message, while
`can_make_query` is `false` and `get_remaining_queries` is `0`. -/
theorem claim_C5_quota_advisory (m : SessionManager) (now : Int)
    (sid text : String) (b : Bool) (s : Session)
    (hl : lookupSession m.sessions sid = some s)
    (he : is_session_expired m now s = false)
    (hq : s.max_queries ≤ s.query_count) :
    (add_message_to_session m now sid text b).1 = true ∧
    lookupSession ((add_message_to_session m now sid text b).2).sessions sid
      = some (stepSession s text b now) ∧
    (can_make_query m now sid).1 = false ∧
    (get_remaining_queries m now sid).1 = 0 := by
  rw [add_message_present m now sid text b s hl he]
  refine ⟨rfl, ?_, ?_, ?_⟩
  · dsimp only
    rw [lookupSession_update_self, hl]
    rfl
  · simp only [can_make_query, get_session_lookup_live m now sid s hl he]
    simp only [decide_eq_false_iff_not, not_lt]
    exact hq
  · simp only [get_remaining_queries, get_session_lookup_live m now sid s hl he]
    exact max_eq_left (by omega)

/-- Witness for C5: `max_queries = 2` and `query_count = 2` as in the spec's
scenario; a third append still succeeds. -/
theorem claim_C5_quota_advisory_witness :
    (add_message_to_session
        (SessionManager.mk [("s", Session.mk 0 0 [] 2 2)] 3600) 1 "s" "third" true).1 = true ∧
    lookupSession ((add_message_to_session
        (SessionManager.mk [("s", Session.mk 0 0 [] 2 2)] 3600)
        1 "s" "third" true).2).sessions "s"
      = some (stepSession (Session.mk 0 0 [] 2 2) "third" true 1) ∧
    (can_make_query (SessionManager.mk [("s", Session.mk 0 0 [] 2 2)] 3600) 1 "s").1 = false ∧
    (get_remaining_queries
        (SessionManager.mk [("s", Session.mk 0 0 [] 2 2)] 3600) 1 "s").1 = 0 :=
  claim_C5_quota_advisory
    (SessionManager.mk [("s", Session.mk 0 0 [] 2 2)] 3600)
    1 "s" "third" true (Session.mk 0 0 [] 2 2) (by decide) (by decide) (by decide)

/-- C6: `can_make_query` returns `true` exactly when the session is stored,
is not expired at the time of the call, and its `query_count` is strictly
below its `max_queries`; for an absent or expired id it returns `false`. -/
theorem claim_C6_can_make_query (m : SessionManager) (now : Int) (sid : String) :
    (can_make_query m now sid).1 = true ↔
      ∃ s, lookupSession m.sessions sid = some s ∧
        is_session_expired m now s = false ∧
        s.query_count < s.max_queries := by
  cases hl : lookupSession m.sessions sid with
  | none =>
    simp only [can_make_query, get_session_lookup_none m now sid hl]
    constructor
    · intro h
      exact Bool.noConfusion h
    · rintro ⟨s, hs, _⟩
      exact Option.noConfusion hs
  | some s =>
    cases he : is_session_expired m now s with
    | true =>
      simp only [can_make_query, get_session_lookup_expired m now sid s hl he]
      constructor
      · intro h
        exact Bool.noConfusion h
      · rintro ⟨s2, hs2, he2, _⟩
        obtain rfl := Option.some.inj hs2
        rw [he] at he2
        exact Bool.noConfusion he2
    | false =>
      simp only [can_make_query, get_session_lookup_live m now sid s hl he,
        decide_eq_true_eq]
      constructor
      · intro h
        exact ⟨s, rfl, he, h⟩
      · rintro ⟨s2, hs2, _, hlt⟩
        obtain rfl := Option.some.inj hs2
        exact hlt

/-- C7: `get_remaining_queries` is never negative; for a stored, non-expired
session it equals `max 0 (max_queries - query_count)`; for an absent or
expired id it equals `0`. -/
theorem claim_C7_remaining_queries (m : SessionManager) (now : Int)
    (sid : String) (s : Session) :
    0 ≤ (get_remaining_queries m now sid).1 ∧
    (lookupSession m.sessions sid = some s → is_session_expired m now s = false →
      (get_remaining_queries m now sid).1 = max 0 (s.max_queries - s.query_count)) ∧
    ((get_session m now sid).1 = none → (get_remaining_queries m now sid).1 = 0) := by
  refine ⟨?_, ?_, ?_⟩
  · cases hg : get_session m now sid with
    | mk o m1 =>
      cases o with
      | none => simp [get_remaining_queries, hg]
      | some s2 =>
        simp only [get_remaining_queries, hg]
        exact le_max_left 0 _
  · intro hls he
    simp only [get_remaining_queries, get_session_lookup_live m now sid s hls he]
  · intro hnone
    cases hg : get_session m now sid with
    | mk o m1 =>
      rw [hg] at hnone
      simp only at hnone
      subst hnone
      simp [get_remaining_queries, hg]

/-- Witness for C7: a stored, non-expired session with `query_count = 0` and
`max_queries = 5` has 5 remaining queries. -/
theorem claim_C7_remaining_queries_witness :
    0 ≤ (get_remaining_queries (SessionManager.mk [("s", freshSession 0)] 3600) 1 "s").1 ∧
    (lookupSession (SessionManager.mk [("s", freshSession 0)] 3600).sessions "s"
        = some (freshSession 0) →
      is_session_expired (SessionManager.mk [("s", freshSession 0)] 3600) 1
        (freshSession 0) = false →
      (get_remaining_queries (SessionManager.mk [("s", freshSession 0)] 3600) 1 "s").1
        = max 0 ((freshSession 0).max_queries - (freshSession 0).query_count)) ∧
    ((get_session (SessionManager.mk [("s", freshSession 0)] 3600) 1 "s").1 = none →
      (get_remaining_queries (SessionManager.mk [("s", freshSession 0)] 3600) 1 "s").1 = 0) :=
  claim_C7_remaining_queries (SessionManager.mk [("s", freshSession 0)] 3600)
    1 "s" (freshSession 0)

/-- C8: `create_session` returns the generated id and stores a session with
empty history, `query_count = 0`, `created_at = last_activity = now`, and the
per-session quota ceiling `max_queries = 5` — not the display-oriented
configuration constant `SESSION_QUERY_LIMIT = 10`. -/
theorem claim_C8_create_session (m : SessionManager) (now : Int) (sid : String) :
    (create_session m now sid).1 = sid ∧
    lookupSession ((create_session m now sid).2).sessions sid = some (freshSession now) ∧
    (freshSession now).messages = [] ∧
    (freshSession now).query_count = 0 ∧
    (freshSession now).created_at = now ∧
    (freshSession now).last_activity = now ∧
    (freshSession now).max_queries = 5 ∧
    (freshSession now).max_queries ≠ SESSION_QUERY_LIMIT ∧
    SESSION_QUERY_LIMIT = 10 := by
  refine ⟨rfl, ?_, rfl, rfl, rfl, rfl, rfl, ?_, rfl⟩
  · exact lookupSession_insert_self m.sessions sid (freshSession now)
  · exact (by decide : (5 : Int) ≠ 10)

/-- C10: every session-resolving operation shares `get_session`'s store
effect: the three read operations return `get_session`'s store unchanged
otherwise; an absent or expired id is physically removed (subsequent lookups
find nothing), and a present, non-expired id leaves the store untouched. -/
theorem claim_C10_lazy_expiry_everywhere (m : SessionManager) (now : Int)
    (sid text : String) (b : Bool)
    (hnd : (sessionIds m.sessions).Nodup) :
    ((get_conversation_history m now sid).2 = (get_session m now sid).2) ∧
    ((can_make_query m now sid).2 = (get_session m now sid).2) ∧
    ((get_remaining_queries m now sid).2 = (get_session m now sid).2) ∧
    ((get_session m now sid).1 = none →
      (add_message_to_session m now sid text b).2 = (get_session m now sid).2) ∧
    ((get_session m now sid).1 = none →
      lookupSession ((get_session m now sid).2).sessions sid = none) ∧
    (∀ s, (get_session m now sid).1 = some s → (get_session m now sid).2 = m) := by
  refine ⟨get_conversation_history_snd m now sid,
    can_make_query_snd m now sid,
    get_remaining_queries_snd m now sid, ?_, ?_, ?_⟩
  · intro hnone
    rw [add_message_absent m now sid text b hnone]
  · intro hnone
    exact get_session_none_of_absent_after m now sid hnd hnone
  · intro s hsome
    exact get_session_store_of_present m now sid s hsome

/-- Witness for C10: an expired one-session store at lookup time 10000; the
expired entry is removed by the lookup itself. -/
theorem claim_C10_lazy_expiry_everywhere_witness :
    ((get_conversation_history (SessionManager.mk [("s", freshSession 0)] 3600) 10000 "s").2
      = (get_session (SessionManager.mk [("s", freshSession 0)] 3600) 10000 "s").2) ∧
    ((can_make_query (SessionManager.mk [("s", freshSession 0)] 3600) 10000 "s").2
      = (get_session (SessionManager.mk [("s", freshSession 0)] 3600) 10000 "s").2) ∧
    ((get_remaining_queries (SessionManager.mk [("s", freshSession 0)] 3600) 10000 "s").2
      = (get_session (SessionManager.mk [("s", freshSession 0)] 3600) 10000 "s").2) ∧
    ((get_session (SessionManager.mk [("s", freshSession 0)] 3600) 10000 "s").1 = none →
      (add_message_to_session (SessionManager.mk [("s", freshSession 0)] 3600)
          10000 "s" "x" true).2
        = (get_session (SessionManager.mk [("s", freshSession 0)] 3600) 10000 "s").2) ∧
    ((get_session (SessionManager.mk [("s", freshSession 0)] 3600) 10000 "s").1 = none →
      lookupSession ((get_session (SessionManager.mk [("s", freshSession 0)] 3600)
          10000 "s").2).sessions "s" = none) ∧
    (∀ s, (get_session (SessionManager.mk [("s", freshSession 0)] 3600) 10000 "s").1 = some s →
      (get_session (SessionManager.mk [("s", freshSession 0)] 3600) 10000 "s").2
        = SessionManager.mk [("s", freshSession 0)] 3600) :=
  claim_C10_lazy_expiry_everywhere (SessionManager.mk [("s", freshSession 0)] 3600)
    10000 "s" "x" true (by decide)
